import Mathlib

/-!
Verification of the Rowblocks Abyssal Quest core against its design spec.

The embedding below translates the sliding-block puzzle engine
(`src/systems/BlockPuzzleSystem.js`), the level progression state machine
(`src/systems/LevelSystem.js`) and the fish boundary policy
(`src/systems/FishSystem.ts`) into Lean definitions.  Rendering state
(meshes, physics bodies, materials) is presentation-side and is not part of
the grid/progression model; everything that the win conditions, undo
history, move counters and unlock logic read or write is carried over.
-/

set_option autoImplicit false

namespace Rowblocks

/-- Semantic block types as they appear in level data and block entities. -/
inductive BlockType where
  | start
  | exit
  | rock
  | coral
  | gem
  | dark
  | glow
deriving DecidableEq

/-- The three principal grid axes. -/
inductive Axis where
  | x
  | y
  | z
deriving DecidableEq

namespace BlockPuzzleSystem

/-- A live block entity: its integer grid coordinates and its (visual) type.
The mesh and physics body owned by each block are render/physics handles with
no bearing on grid logic, so they are not modelled. -/
structure PBlock where
  gridX : Int
  gridY : Int
  gridZ : Int
  type : BlockType
deriving DecidableEq

/-- `createBlock` maps the semantic types start/exit to the visual types
glow/gem before storing the block. -/
def visualType : BlockType → BlockType
  | .start => .glow
  | .exit => .gem
  | t => t

/-- The keyboard inputs the puzzle system's `onKeyDown` listener reacts to. -/
inductive Key where
  | arrowLeft
  | arrowRight
  | arrowUp
  | arrowDown
  | other
deriving DecidableEq

/-- The puzzle system's mutable state: the live blocks, the current line
selection, the bounded undo history (each entry a deep copy of the blocks
array), the upgrade-granted undo capacity, whether a level system is
attached, and the attached level system's move counter (the target of
`recordMove`).  The snapshot's companion map of mesh positions is render
state and is omitted. -/
structure PuzzleState where
  blocks : List PBlock
  selectedAxis : Option Axis
  selectedIndex : Int
  moveHistory : List (List PBlock)
  maxUndos : Nat
  hasLevelSystem : Bool
  moves : Nat
deriving DecidableEq

/-- The grid coordinate of a block along a given axis. -/
def coordAlong : Axis → PBlock → Int
  | .x, b => b.gridX
  | .y, b => b.gridY
  | .z, b => b.gridZ

/-- Whether a block belongs to the line selected by `(axis, index)`:
its coordinate along the axis equals the index. -/
def lineMatches (a : Axis) (i : Int) (b : PBlock) : Bool :=
  coordAlong a b == i

/-- Add `d` to a block's grid coordinate along axis `a`
(the grid-coordinate update inside `slideRow`). -/
def bump (a : Axis) (d : Int) (b : PBlock) : PBlock :=
  match a with
  | .x => { b with gridX := b.gridX + d }
  | .y => { b with gridY := b.gridY + d }
  | .z => { b with gridZ := b.gridZ + d }

/-- `selectRow(axis, index)`: record the selection (the emissive highlight it
also applies is render state). -/
def selectRow (s : PuzzleState) (a : Axis) (i : Int) : PuzzleState :=
  { s with selectedAxis := some a, selectedIndex := i }

/-- `saveState()`: if the history has reached `maxUndos` entries the oldest
entry is shifted off the front, then a snapshot of the blocks array is
pushed at the back. -/
def saveState (s : PuzzleState) : PuzzleState :=
  let hist := if s.maxUndos ≤ s.moveHistory.length then s.moveHistory.drop 1
              else s.moveHistory
  { s with moveHistory := hist ++ [s.blocks] }

/-- The `if (this.levelSystem) this.levelSystem.recordMove()` step of
`slideRow`: increments the attached level system's move counter. -/
def recordMoveStep (s : PuzzleState) : PuzzleState :=
  if s.hasLevelSystem then { s with moves := s.moves + 1 } else s

/-- `slideRow(blocks, axis, direction)`: save an undo snapshot, record one
move, then move every block of the selected line one step along the axis.
The caller passes the array of blocks whose coordinate along `a` equals `i`
(filtered immediately before the call), which is exactly the blocks
satisfying `lineMatches a i`; the physics impulse applied alongside is
render/physics-side.  The trailing win-condition check only reads this
state. -/
def slideRow (s : PuzzleState) (a : Axis) (i : Int) (d : Int) : PuzzleState :=
  let s1 := recordMoveStep (saveState s)
  { s1 with blocks := s1.blocks.map fun b => if lineMatches a i b then bump a d b else b }

/-- `onKeyDown`: ignore the key when no axis is selected or the selected
index is the `-1` sentinel; ignore it when the selected line is empty;
otherwise dispatch arrow keys to `slideRow` exactly as the source's switch
does (left/right slide x- or z-lines, up/down slide y- or z-lines). -/
def onKeyDown (s : PuzzleState) (k : Key) : PuzzleState :=
  match s.selectedAxis with
  | none => s
  | some a =>
    if s.selectedIndex == -1 then s
    else if (s.blocks.filter (lineMatches a s.selectedIndex)).isEmpty then s
    else
      match k with
      | .arrowLeft =>
        if a = Axis.x then slideRow s a s.selectedIndex (-1)
        else if a = Axis.z then slideRow s a s.selectedIndex (-1)
        else s
      | .arrowRight =>
        if a = Axis.x then slideRow s a s.selectedIndex 1
        else if a = Axis.z then slideRow s a s.selectedIndex 1
        else s
      | .arrowUp =>
        if a = Axis.y then slideRow s a s.selectedIndex 1
        else if a = Axis.z then slideRow s a s.selectedIndex 1
        else s
      | .arrowDown =>
        if a = Axis.y then slideRow s a s.selectedIndex (-1)
        else if a = Axis.z then slideRow s a s.selectedIndex (-1)
        else s
      | .other => s

/-- The slide direction a key produces for a given selected axis, read off
the source's `onKeyDown` switch. -/
def keyDir : Axis → Key → Option Int
  | .x, .arrowLeft => some (-1)
  | .x, .arrowRight => some 1
  | .y, .arrowUp => some 1
  | .y, .arrowDown => some (-1)
  | .z, .arrowLeft => some (-1)
  | .z, .arrowRight => some 1
  | .z, .arrowUp => some 1
  | .z, .arrowDown => some (-1)
  | _, _ => none

/-- `undo()`: returns false on an empty history; otherwise pops the most
recent snapshot and returns true.  The source's restoration of block
coordinates from the popped snapshot is left unimplemented (its body is the
comment `Simplified - in production, fully restore state`), so the blocks
are returned unchanged. -/
def undo (s : PuzzleState) : Bool × PuzzleState :=
  if s.moveHistory.isEmpty then (false, s)
  else (true, { s with moveHistory := s.moveHistory.dropLast })

lemma slideRow_blocks (s : PuzzleState) (a : Axis) (i d : Int) :
    (slideRow s a i d).blocks =
      s.blocks.map fun b => if lineMatches a i b then bump a d b else b := by
  cases h : s.hasLevelSystem <;> simp [slideRow, recordMoveStep, saveState, h]

lemma slideRow_moves (s : PuzzleState) (a : Axis) (i d : Int)
    (h : s.hasLevelSystem = true) :
    (slideRow s a i d).moves = s.moves + 1 := by
  simp [slideRow, recordMoveStep, saveState, h]

lemma slideRow_moveHistory (s : PuzzleState) (a : Axis) (i d : Int) :
    (slideRow s a i d).moveHistory =
      (if s.maxUndos ≤ s.moveHistory.length then s.moveHistory.drop 1
       else s.moveHistory) ++ [s.blocks] := by
  cases h : s.hasLevelSystem <;> simp [slideRow, recordMoveStep, saveState, h]

lemma slideRow_maxUndos (s : PuzzleState) (a : Axis) (i d : Int) :
    (slideRow s a i d).maxUndos = s.maxUndos := by
  cases h : s.hasLevelSystem <;> simp [slideRow, recordMoveStep, saveState, h]

lemma onKeyDown_eq_slideRow (s : PuzzleState) (a : Axis) (k : Key) (d : Int)
    (hax : s.selectedAxis = some a)
    (hidx : s.selectedIndex ≠ -1)
    (hk : keyDir a k = some d)
    (hrow : (s.blocks.filter (lineMatches a s.selectedIndex)).isEmpty = false) :
    onKeyDown s k = slideRow s a s.selectedIndex d := by
  have hidx2 : (s.selectedIndex == -1) = false := by
    simpa using hidx
  unfold onKeyDown
  rw [hax]
  cases a <;> cases k <;>
    simp_all [keyDir]

lemma bump_coord_self (a : Axis) (d : Int) (b : PBlock) :
    coordAlong a (bump a d b) = coordAlong a b + d := by
  cases a <;> simp [bump, coordAlong]

lemma bump_coord_other (a a2 : Axis) (d : Int) (b : PBlock) (h : a2 ≠ a) :
    coordAlong a2 (bump a d b) = coordAlong a2 b := by
  cases a <;> cases a2 <;> simp_all [bump, coordAlong]

/-- Claim C1: for a valid selection (axis `a`, index ≠ the −1 sentinel, as a
spec-valid in-extent index always is) whose line contains at least one block,
a key that slides in direction `d` along `a` adds exactly `d` to each selected
block's coordinate along `a`, leaves the other two coordinates of selected
blocks and all three coordinates of unselected blocks unchanged, and
increments the progression tracker's move counter exactly once for the whole
slide. -/
theorem slide_moves_selected_line_once (s : PuzzleState) (a : Axis) (d : Int) (k : Key)
    (hax : s.selectedAxis = some a)
    (hidx : s.selectedIndex ≠ -1)
    (hk : keyDir a k = some d)
    (hrow : 0 < (s.blocks.filter (lineMatches a s.selectedIndex)).length)
    (hls : s.hasLevelSystem = true) :
    (onKeyDown s k).blocks.length = s.blocks.length ∧
    (∀ j : Nat, ∀ b : PBlock, s.blocks[j]? = some b →
      (lineMatches a s.selectedIndex b = true →
        (onKeyDown s k).blocks[j]? = some (bump a d b) ∧
        coordAlong a (bump a d b) = coordAlong a b + d ∧
        ∀ a2 : Axis, a2 ≠ a → coordAlong a2 (bump a d b) = coordAlong a2 b) ∧
      (lineMatches a s.selectedIndex b = false →
        (onKeyDown s k).blocks[j]? = some b)) ∧
    (onKeyDown s k).moves = s.moves + 1 := by
  have hrow2 : (s.blocks.filter (lineMatches a s.selectedIndex)).isEmpty = false := by
    cases hfe : s.blocks.filter (lineMatches a s.selectedIndex) with
    | nil => rw [hfe] at hrow; simp at hrow
    | cons x xs => rfl
  rw [onKeyDown_eq_slideRow s a k d hax hidx hk hrow2]
  refine ⟨?_, ?_, slideRow_moves s a s.selectedIndex d hls⟩
  · rw [slideRow_blocks]; simp
  · intro j b hjb
    constructor
    · intro hm
      refine ⟨?_, bump_coord_self a d b, fun a2 h2 => bump_coord_other a a2 d b h2⟩
      rw [slideRow_blocks, List.getElem?_map, hjb]
      simp [hm]
    · intro hm
      rw [slideRow_blocks, List.getElem?_map, hjb]
      simp [hm]

/-- A concrete two-block state with the x-line at index 0 selected. -/
def slideDemoState : PuzzleState :=
  { blocks := [⟨0, 0, 0, .rock⟩, ⟨1, 0, 0, .gem⟩],
    selectedAxis := some Axis.x, selectedIndex := 0,
    moveHistory := [], maxUndos := 3, hasLevelSystem := true, moves := 0 }

/-- Claim C1 witness: sliding the selected x-line of `slideDemoState` right
records exactly one move. -/
theorem slide_moves_selected_line_once_witness :
    (onKeyDown slideDemoState Key.arrowRight).moves = slideDemoState.moves + 1 :=
  (slide_moves_selected_line_once slideDemoState Axis.x 1 Key.arrowRight rfl
    (by decide) rfl (by decide) rfl).2.2

/-- Claim C9: a slide key with no selected axis, or with a selection whose
line contains zero blocks, is a complete no-op: the state (blocks, move
counter, undo history) is returned unchanged and nothing is raised. -/
theorem slide_without_selection_noop (s : PuzzleState) (k : Key)
    (h : s.selectedAxis = none ∨
         ∃ a, s.selectedAxis = some a ∧
           s.blocks.filter (lineMatches a s.selectedIndex) = []) :
    onKeyDown s k = s := by
  rcases h with h | ⟨a, hax, hfil⟩
  · simp [onKeyDown, h]
  · unfold onKeyDown
    rw [hax]
    simp [hfil]

/-- A concrete state in which `selectRow` has never been called. -/
def noSelectionState : PuzzleState :=
  { blocks := [⟨0, 0, 0, .rock⟩], selectedAxis := none, selectedIndex := -1,
    moveHistory := [], maxUndos := 3, hasLevelSystem := true, moves := 0 }

/-- Claim C9 witness: an arrow key on `noSelectionState` changes nothing. -/
theorem slide_without_selection_noop_witness :
    onKeyDown noSelectionState Key.arrowLeft = noSelectionState :=
  slide_without_selection_noop noSelectionState Key.arrowLeft (Or.inl rfl)

/-- A state whose single undo snapshot records the block at (0,0,0) while the
live block now sits at (1,0,0). -/
def undoDemoState : PuzzleState :=
  { blocks := [⟨1, 0, 0, .rock⟩], selectedAxis := none, selectedIndex := -1,
    moveHistory := [[⟨0, 0, 0, .rock⟩]], maxUndos := 3, hasLevelSystem := true,
    moves := 1 }

/-- Claim C2 (code-bug evidence): `undo` on `undoDemoState` pops the snapshot
and reports success, yet the block's grid coordinates stay at (1,0,0) instead
of being restored to the snapshot's (0,0,0) — the source's restore step is an
unimplemented stub; the empty-history branch does return false and change
nothing. -/
theorem undo_pops_without_restoring :
    (undo undoDemoState).1 = true ∧
    (undo undoDemoState).2.moveHistory = [] ∧
    (undo undoDemoState).2.blocks = undoDemoState.blocks ∧
    undoDemoState.blocks ≠ undoDemoState.moveHistory.headD [] ∧
    undo { undoDemoState with moveHistory := [] } =
      (false, { undoDemoState with moveHistory := [] }) := by
  refine ⟨by decide, by decide, by decide, by decide, by decide⟩

/-- A one-block state whose upgrade-granted undo capacity is 0. -/
def capZeroState : PuzzleState :=
  { blocks := [⟨0, 0, 0, .rock⟩], selectedAxis := some Axis.x, selectedIndex := 0,
    moveHistory := [], maxUndos := 0, hasLevelSystem := true, moves := 0 }

/-- Claim C6 counterexample: with undo capacity 0, a slide still stores one
snapshot, so the history size exceeds the configured limit 0. -/
theorem undo_history_capacity_zero_cex :
    capZeroState.maxUndos = 0 ∧
    (onKeyDown capZeroState Key.arrowRight).moveHistory.length = 1 := by
  exact ⟨rfl, by decide⟩

lemma onKeyDown_shape (s : PuzzleState) (k : Key) :
    onKeyDown s k = s ∨ ∃ a i d, onKeyDown s k = slideRow s a i d := by
  unfold onKeyDown
  cases hax : s.selectedAxis with
  | none => exact Or.inl rfl
  | some a =>
    by_cases h1 : (s.selectedIndex == -1) = true
    · simp [h1]
    · by_cases h2 : (s.blocks.filter (lineMatches a s.selectedIndex)).isEmpty = true
      · simp [h1, h2]
      · cases a <;> cases k <;>
          simp only [h1, h2, if_false, Bool.false_eq_true, ite_false, ite_true,
            reduceCtorEq, if_true] <;>
          first
          | exact Or.inl trivial
          | exact Or.inl rfl
          | exact Or.inr ⟨_, _, _, rfl⟩

lemma onKeyDown_bound (s : PuzzleState) (k : Key)
    (h : s.moveHistory.length ≤ max s.maxUndos 1) :
    (onKeyDown s k).moveHistory.length ≤ max s.maxUndos 1 ∧
    (onKeyDown s k).maxUndos = s.maxUndos := by
  rcases onKeyDown_shape s k with he | ⟨a, i, d, he⟩
  · rw [he]; exact ⟨h, rfl⟩
  · rw [he, slideRow_maxUndos, slideRow_moveHistory]
    refine ⟨?_, rfl⟩
    simp only [List.length_append, List.length_singleton]
    split
    · simp only [List.length_drop]; omega
    · next hc => omega

/-- Claim C6 amended: the undo history is bounded by max(capacity, 1), not by
the capacity itself — with capacity ≥ 1 any sequence of slide keys keeps at
most `capacity` snapshots and a slide on a full history evicts the oldest
(front) snapshot before appending the new one (FIFO), but with capacity 0 a
slide still retains one snapshot. -/
theorem undo_history_bounded (s : PuzzleState) (ks : List Key) (a : Axis) (i d : Int)
    (hinv : s.moveHistory.length ≤ max s.maxUndos 1) :
    (ks.foldl onKeyDown s).moveHistory.length ≤ max s.maxUndos 1 ∧
    (s.maxUndos ≤ s.moveHistory.length →
      (slideRow s a i d).moveHistory = s.moveHistory.drop 1 ++ [s.blocks]) ∧
    (s.moveHistory.length < s.maxUndos →
      (slideRow s a i d).moveHistory = s.moveHistory ++ [s.blocks]) := by
  refine ⟨?_, ?_, ?_⟩
  · induction ks generalizing s with
    | nil => exact hinv
    | cons k ks ih =>
      obtain ⟨h1, h2⟩ := onKeyDown_bound s k hinv
      have h3 := ih (onKeyDown s k) (by rw [h2]; exact h1)
      rw [h2] at h3
      exact h3
  · intro hfull
    rw [slideRow_moveHistory, if_pos hfull]
  · intro hlt
    rw [slideRow_moveHistory, if_neg (by omega)]

/-- A one-block state with undo capacity 2 and empty history. -/
def capTwoState : PuzzleState :=
  { blocks := [⟨0, 0, 0, .rock⟩], selectedAxis := some Axis.x, selectedIndex := 0,
    moveHistory := [], maxUndos := 2, hasLevelSystem := true, moves := 0 }

/-- A one-block state with undo capacity 1 whose history is already full. -/
def capOneFullState : PuzzleState :=
  { blocks := [⟨1, 0, 0, .rock⟩], selectedAxis := some Axis.x, selectedIndex := 1,
    moveHistory := [[⟨0, 0, 0, .rock⟩]], maxUndos := 1, hasLevelSystem := true,
    moves := 1 }

/-- Claim C6 amended, witness: three slides on a capacity-2 state stay within
the bound, and a slide on a full capacity-1 state evicts the front snapshot
before pushing the new one. -/
theorem undo_history_bounded_witness :
    ([Key.arrowRight, Key.arrowRight, Key.arrowRight].foldl
        onKeyDown capTwoState).moveHistory.length ≤ max capTwoState.maxUndos 1 ∧
    (slideRow capOneFullState Axis.x 1 1).moveHistory =
      capOneFullState.moveHistory.drop 1 ++ [capOneFullState.blocks] :=
  ⟨(undo_history_bounded capTwoState [Key.arrowRight, Key.arrowRight, Key.arrowRight]
      Axis.x 0 1 (by decide)).1,
   (undo_history_bounded capOneFullState [] Axis.x 1 1 (by decide)).2.1 (by decide)⟩

end BlockPuzzleSystem

/-- First index of an element satisfying `p`, the index-returning model of
JavaScript's `Array.prototype.find` (the source keeps the found object and
mutates it through the alias; the functional embedding keeps its index). -/
def findFirstIdx {α : Type} (p : α → Bool) : List α → Option Nat
  | [] => none
  | x :: xs => if p x then some 0 else (findFirstIdx p xs).map (· + 1)

lemma findFirstIdx_none {α : Type} (p : α → Bool) (l : List α)
    (h : ∀ x ∈ l, p x = false) : findFirstIdx p l = none := by
  induction l with
  | nil => rfl
  | cons x xs ih =>
    have hx := h x (by simp)
    rw [findFirstIdx, ih fun y hy => h y (by simp [hy])]
    simp [hx]

lemma findFirstIdx_some {α : Type} (p : α → Bool) (l : List α) (j : Nat) (d : α)
    (h : findFirstIdx p l = some j) : j < l.length ∧ p (l.getD j d) = true := by
  induction l generalizing j with
  | nil => simp [findFirstIdx] at h
  | cons x xs ih =>
    rw [findFirstIdx] at h
    by_cases hp : p x = true
    · rw [if_pos hp] at h
      obtain rfl : j = 0 := by simpa using h.symm
      simpa [hp] using Nat.succ_pos xs.length
    · rw [if_neg hp] at h
      obtain ⟨j2, hj2, rfl⟩ := Option.map_eq_some'.mp h
      obtain ⟨hlt, hpd⟩ := ih j2 hj2
      exact ⟨by simpa using hlt, by simpa using hpd⟩

lemma findFirstIdx_set {α : Type} (p : α → Bool) (l : List α) (i : Nat) (x : α)
    (h : ∀ y, l[i]? = some y → p x = p y) :
    findFirstIdx p (l.set i x) = findFirstIdx p l := by
  induction l generalizing i with
  | nil => rfl
  | cons z zs ih =>
    cases i with
    | zero =>
      have hz : p x = p z := h z (by simp)
      simp [List.set, findFirstIdx, hz]
    | succ n =>
      have h2 : ∀ y, zs[n]? = some y → p x = p y := fun y hy => h y (by simpa using hy)
      simp [List.set, findFirstIdx, ih n h2]

lemma map_set_eq {α β : Type} (f : α → β) (l : List α) (i : Nat) (x : α)
    (h : ∀ y, l[i]? = some y → f x = f y) :
    (l.set i x).map f = l.map f := by
  induction l generalizing i with
  | nil => rfl
  | cons z zs ih =>
    cases i with
    | zero =>
      have hz : f x = f z := h z (by simp)
      simp [List.set, hz]
    | succ n =>
      have h2 : ∀ y, zs[n]? = some y → f x = f y := fun y hy => h y (by simpa using hy)
      simp [List.set, ih n h2]

namespace LevelSystem

/-- Grid dimensions of a level. -/
structure GridSize where
  x : Nat
  y : Nat
  z : Nat
deriving DecidableEq

/-- An integer 3D coordinate (the source stores these in `THREE.Vector3`s and
coordinate-keyed maps; only integral grid coordinates ever flow through the
progression logic). -/
structure Coord3 where
  x : Int
  y : Int
  z : Int
deriving DecidableEq

/-- A level's win-condition descriptor (`solution.type` plus its target). -/
inductive Solution where
  | path (pfrom pto : Coord3)
  | collect (gems : Nat)
  | align (pattern : List BlockType)
  | clear
deriving DecidableEq

/-- A block placement in a level definition; `required` models the optional
`required` flag (absent means false, since JavaScript treats a missing
property as falsy). -/
structure LevelBlock where
  x : Int
  y : Int
  z : Int
  type : BlockType
  required : Bool := false
deriving DecidableEq

/-- A level descriptor; the display name and description strings are
presentation-side and omitted. -/
structure Level where
  id : Nat
  gridSize : GridSize
  blocks : List LevelBlock
  solution : Solution
  maxMoves : Nat
  targetScore : Nat
  unlocked : Bool
  stars : Nat
deriving DecidableEq

instance : Inhabited Level :=
  ⟨⟨0, ⟨0, 0, 0⟩, [], Solution.clear, 0, 0, false, 0⟩⟩

/-- Level 1 "First Dive" from `initializeLevels`. -/
def level1 : Level :=
  { id := 1, gridSize := ⟨3, 2, 3⟩,
    blocks := [⟨0, 0, 0, .start, false⟩, ⟨1, 0, 0, .rock, false⟩,
               ⟨2, 0, 0, .exit, false⟩, ⟨0, 1, 0, .rock, false⟩,
               ⟨1, 1, 0, .rock, false⟩],
    solution := .path ⟨0, 0, 0⟩ ⟨2, 0, 0⟩, maxMoves := 5, targetScore := 100,
    unlocked := true, stars := 0 }

/-- Level 2 "Treasure Hunt" from `initializeLevels`: two gems marked
required, win condition `collect`. -/
def level2 : Level :=
  { id := 2, gridSize := ⟨4, 2, 4⟩,
    blocks := [⟨0, 0, 0, .start, false⟩, ⟨1, 0, 0, .gem, true⟩,
               ⟨2, 0, 0, .rock, false⟩, ⟨3, 0, 0, .gem, true⟩,
               ⟨0, 1, 0, .rock, false⟩, ⟨1, 1, 0, .rock, false⟩,
               ⟨2, 1, 0, .exit, false⟩],
    solution := .collect 2, maxMoves := 8, targetScore := 200,
    unlocked := false, stars := 0 }

/-- Level 3 "Ancient Pattern" from `initializeLevels`. -/
def level3 : Level :=
  { id := 3, gridSize := ⟨5, 2, 5⟩,
    blocks := [⟨0, 0, 0, .start, false⟩, ⟨1, 0, 0, .gem, false⟩,
               ⟨2, 0, 0, .gem, false⟩, ⟨3, 0, 0, .gem, false⟩,
               ⟨4, 0, 0, .exit, false⟩, ⟨0, 1, 0, .rock, false⟩,
               ⟨1, 1, 0, .rock, false⟩, ⟨2, 1, 0, .rock, false⟩,
               ⟨3, 1, 0, .rock, false⟩],
    solution := .align [.gem, .gem, .gem], maxMoves := 10, targetScore := 300,
    unlocked := false, stars := 0 }

/-- The level system's state.  `currentLevelData` holds the index into
`levels` of the active descriptor (the source holds an aliasing object
reference; the index realises the same sharing functionally), `currentLevel`
the active level's id.  Levels 4–30 of the catalog are produced by
`generateLevel` from an unseeded random source, so the catalog is a state
component rather than a fixed list. -/
structure LevelState where
  levels : List Level
  currentLevel : Nat
  currentLevelData : Option Nat
  moves : Nat
  score : Nat
  stars : Nat
deriving DecidableEq

/-- The active level's descriptor, if any (`getCurrentLevel`). -/
def getCurrentLevel (s : LevelState) : Option Level :=
  s.currentLevelData.map fun i => s.levels.getD i default

/-- `startLevel(levelId)`: find the level by id; fail if absent or locked;
otherwise make it current and reset the attempt counters. -/
def startLevel (s : LevelState) (levelId : Nat) : Bool × LevelState :=
  match findFirstIdx (fun l => l.id == levelId) s.levels with
  | none => (false, s)
  | some i =>
    if (s.levels.getD i default).unlocked then
      (true,
       { s with
           currentLevel := levelId, currentLevelData := some i,
           moves := 0, score := 0, stars := 0 })
    else (false, s)

/-- `recordMove()`. -/
def recordMove (s : LevelState) : LevelState :=
  { s with moves := s.moves + 1 }

/-- `addScore(points)`. -/
def addScore (s : LevelState) (points : Nat) : LevelState :=
  { s with score := s.score + points }

/-- `checkGemsCollected(blockPositions)`: counts blocks flagged gem-and-
required in the current level descriptor's block list; the live-grid
positions argument is not consulted by the source. -/
def checkGemsCollected (s : LevelState) (blockPositions : List Coord3) : Bool :=
  match getCurrentLevel s with
  | none => false
  | some lvl =>
    (lvl.blocks.filter fun b => b.type == BlockType.gem && b.required).length == 0

/-- `checkPath(blockPositions)`: both the declared start and exit coordinates
must be keys of the live-position map. -/
def checkPath (s : LevelState) (blockPositions : List Coord3) : Bool :=
  match getCurrentLevel s with
  | none => false
  | some lvl =>
    match lvl.blocks.find? (fun b => b.type == BlockType.start),
          lvl.blocks.find? (fun b => b.type == BlockType.exit) with
    | some sb, some eb =>
      blockPositions.contains ⟨sb.x, sb.y, sb.z⟩ &&
        blockPositions.contains ⟨eb.x, eb.y, eb.z⟩
    | _, _ => false

/-- `checkPattern`: a placeholder that always succeeds in the source. -/
def checkPattern (s : LevelState) (blockPositions : List Coord3) : Bool :=
  true

/-- `checkCleared`: a placeholder that always succeeds in the source. -/
def checkCleared (s : LevelState) (blockPositions : List Coord3) : Bool :=
  true

/-- `checkWinCondition(blockPositions)`: dispatch on the solution kind. -/
def checkWinCondition (s : LevelState) (blockPositions : List Coord3) : Bool :=
  match getCurrentLevel s with
  | none => false
  | some lvl =>
    match lvl.solution with
    | .path _ _ => checkPath s blockPositions
    | .collect _ => checkGemsCollected s blockPositions
    | .align _ => checkPattern s blockPositions
    | .clear => checkCleared s blockPositions

/-- `calculateStars()`: the tiered move-ratio/score-ratio rule, with the
source's real-number division carried out in ℚ. -/
def calculateStars (s : LevelState) : Nat :=
  match getCurrentLevel s with
  | none => 0
  | some lvl =>
    let moveFrac : ℚ := (s.moves : ℚ) / (lvl.maxMoves : ℚ)
    let scoreFrac : ℚ := (s.score : ℚ) / (lvl.targetScore : ℚ)
    if moveFrac ≤ 1 / 2 ∧ 1 ≤ scoreFrac then 3
    else if moveFrac ≤ 3 / 4 ∧ 4 / 5 ≤ scoreFrac then 2
    else if moveFrac ≤ 1 ∧ 3 / 5 ≤ scoreFrac then 1
    else 0

/-- The record returned by `completeLevel`. -/
structure CompleteResult where
  stars : Nat
  score : Nat
  unlocked : List Nat
deriving DecidableEq

/-- The `currentLevelData.stars = Math.max(currentLevelData.stars, stars)`
step of `completeLevel` (the write lands in the catalog through the aliased
descriptor at index `i`): the catalog with the active level's best-stars
folded in. -/
def bestStarsLevels (s : LevelState) (i : Nat) : List Level :=
  s.levels.set i
    { s.levels.getD i default with
        stars := max (s.levels.getD i default).stars (calculateStars s) }

/-- `completeLevel()`: with no active level return zeros and change nothing;
otherwise compute stars, fold them into the descriptor's best-stars, set the
next sequential level (id = currentLevel + 1) unlocked whenever stars > 0,
and report `{stars, score, unlocked}`. -/
def completeLevel (s : LevelState) : CompleteResult × LevelState :=
  match s.currentLevelData with
  | none => (⟨0, 0, []⟩, s)
  | some i =>
    match findFirstIdx (fun l => l.id == s.currentLevel + 1) (bestStarsLevels s i) with
    | none =>
      (⟨calculateStars s, s.score, []⟩,
       { s with stars := calculateStars s, levels := bestStarsLevels s i })
    | some j =>
      if 0 < calculateStars s then
        (⟨calculateStars s, s.score, [((bestStarsLevels s i).getD j default).id]⟩,
         { s with
             stars := calculateStars s,
             levels := (bestStarsLevels s i).set j
               { (bestStarsLevels s i).getD j default with unlocked := true } })
      else
        (⟨calculateStars s, s.score, []⟩,
         { s with stars := calculateStars s, levels := bestStarsLevels s i })

/-- The pure tiered star rule of the claim, with each ratio comparison
cross-multiplied into exact integer arithmetic (valid for positive
`maxMoves` and `targetScore`). -/
def starsFor (movesUsed maxMoves scoreAchieved targetScore : Nat) : Nat :=
  if 2 * movesUsed ≤ maxMoves ∧ targetScore ≤ scoreAchieved then 3
  else if 4 * movesUsed ≤ 3 * maxMoves ∧ 4 * targetScore ≤ 5 * scoreAchieved then 2
  else if movesUsed ≤ maxMoves ∧ 3 * targetScore ≤ 5 * scoreAchieved then 1
  else 0

/-- Per the spec's words: the number of blocks of type gem carrying the
required flag among the given live-grid blocks (the quantity the `collect`
condition is specified to test). -/
def requiredGemCount (liveBlocks : List LevelBlock) : Nat :=
  (liveBlocks.filter fun b => b.type == BlockType.gem && b.required).length

/-- A fresh catalog of the first two hand-authored levels (level 2 locked). -/
def freshCatalogState : LevelState :=
  { levels := [level1, level2], currentLevel := 0, currentLevelData := none,
    moves := 0, score := 0, stars := 0 }

/-- A state that never started a level but has accrued counters. -/
def idleScoreState : LevelState :=
  { levels := [level1], currentLevel := 0, currentLevelData := none,
    moves := 3, score := 50, stars := 0 }

/-- Playing level 1 with 2 moves used and 120 score. -/
def playingState : LevelState :=
  { levels := [level1, level2], currentLevel := 1, currentLevelData := some 0,
    moves := 2, score := 120, stars := 0 }

/-- Level 2 with its unlock flag already set. -/
def level2Unlocked : Level :=
  { level2 with unlocked := true }

/-- Completing level 1 (3-star performance) while level 2 is already
unlocked. -/
def alreadyUnlockedState : LevelState :=
  { levels := [level1, level2Unlocked], currentLevel := 1,
    currentLevelData := some 0, moves := 2, score := 120, stars := 0 }

/-- Completing level 1 with a 0-star performance (no score) while level 2 is
still locked. -/
def zeroStarState : LevelState :=
  { levels := [level1, level2], currentLevel := 1, currentLevelData := some 0,
    moves := 2, score := 0, stars := 0 }

/-- Level 2 active (its descriptor lists 2 required gems). -/
def gemDemoState : LevelState :=
  { levels := [level2Unlocked], currentLevel := 2, currentLevelData := some 0,
    moves := 0, score := 0, stars := 0 }

lemma getCurrentLevel_some (s : LevelState) (i : Nat)
    (hcur : s.currentLevelData = some i) :
    getCurrentLevel s = some (s.levels.getD i default) := by
  simp [getCurrentLevel, hcur]

lemma div_le_div_nat_iff (m n a b : Nat) (hn : 0 < n) (hb : 0 < b) :
    ((m : ℚ) / (n : ℚ) ≤ (a : ℚ) / (b : ℚ)) ↔ m * b ≤ a * n := by
  rw [div_le_div_iff (by exact_mod_cast hn) (by exact_mod_cast hb)]
  constructor
  · intro h
    have h2 : ((m * b : Nat) : ℚ) ≤ ((a * n : Nat) : ℚ) := by push_cast; linarith
    exact_mod_cast h2
  · intro h
    have h2 : ((m * b : Nat) : ℚ) ≤ ((a * n : Nat) : ℚ) := by exact_mod_cast h
    push_cast at h2
    linarith

/-- Claim C7: `startLevel` with an id matching no level, or matching a level
that is not unlocked, returns false and leaves the whole state unchanged; on
an unlocked match it returns true, makes that level's descriptor current,
and resets moves, score and stars to 0 (leaving the catalog untouched). -/
theorem startLevel_spec (s : LevelState) (levelId : Nat) :
    ((∀ l ∈ s.levels, l.id ≠ levelId) → startLevel s levelId = (false, s)) ∧
    (∀ i, findFirstIdx (fun l => l.id == levelId) s.levels = some i →
      ((s.levels.getD i default).unlocked = false →
        startLevel s levelId = (false, s)) ∧
      ((s.levels.getD i default).unlocked = true →
        (startLevel s levelId).1 = true ∧
        (startLevel s levelId).2.currentLevel = levelId ∧
        (startLevel s levelId).2.currentLevelData = some i ∧
        (startLevel s levelId).2.moves = 0 ∧
        (startLevel s levelId).2.score = 0 ∧
        (startLevel s levelId).2.stars = 0 ∧
        (startLevel s levelId).2.levels = s.levels)) := by
  constructor
  · intro h
    have hn : findFirstIdx (fun l => l.id == levelId) s.levels = none := by
      refine findFirstIdx_none _ _ fun x hx => ?_
      simpa using h x hx
    simp [startLevel, hn]
  · intro i hi
    refine ⟨fun hu => ?_, fun hu => ?_⟩
    · simp only [List.getD_eq_getElem?_getD] at hu
      simp [startLevel, hi, hu]
    · simp only [List.getD_eq_getElem?_getD] at hu
      simp [startLevel, hi, hu]

/-- Claim C7 witness: on the fresh two-level catalog, starting unlocked level
1 succeeds with reset counters, while locked level 2 and the unknown id 99
both fail with the state unchanged. -/
theorem startLevel_spec_witness :
    (startLevel freshCatalogState 1).1 = true ∧
    (startLevel freshCatalogState 1).2.moves = 0 ∧
    startLevel freshCatalogState 2 = (false, freshCatalogState) ∧
    startLevel freshCatalogState 99 = (false, freshCatalogState) := by
  have h1 := ((startLevel_spec freshCatalogState 1).2 0 (by decide)).2 (by decide)
  exact ⟨h1.1, h1.2.2.2.1,
    ((startLevel_spec freshCatalogState 2).2 1 (by decide)).1 (by decide),
    (startLevel_spec freshCatalogState 99).1 (by decide)⟩

/-- Claim C10: `completeLevel` with no active level descriptor returns
stars 0, score 0 and an empty unlocked list, leaving the state (catalog
flags, best stars, counters) untouched. -/
theorem completeLevel_no_active_level (s : LevelState)
    (h : s.currentLevelData = none) :
    completeLevel s = (⟨0, 0, []⟩, s) := by
  simp [completeLevel, h]

/-- Claim C10 witness: on a never-started state with stray counters,
`completeLevel` reports zeros and changes nothing. -/
theorem completeLevel_no_active_level_witness :
    completeLevel idleScoreState = (⟨0, 0, []⟩, idleScoreState) :=
  completeLevel_no_active_level idleScoreState rfl

/-- Claim C5: with an active level whose move budget and target score are
positive (true of every catalog level), `calculateStars` is the pure tiered
function of (movesUsed, maxMoves, scoreAchieved, targetScore) — 3 stars iff
moves ratio ≤ 0.5 and score ratio ≥ 1, else 2 iff ≤ 0.75 and ≥ 0.8, else 1
iff ≤ 1 and ≥ 0.6, else 0 — and that function sends (2,5,120,100) to 3 and
(4,5,85,100) to 1. -/
theorem calculateStars_pure (s : LevelState) (i : Nat)
    (hcur : s.currentLevelData = some i)
    (hm : 0 < (s.levels.getD i default).maxMoves)
    (ht : 0 < (s.levels.getD i default).targetScore) :
    calculateStars s =
      starsFor s.moves (s.levels.getD i default).maxMoves s.score
        (s.levels.getD i default).targetScore ∧
    starsFor 2 5 120 100 = 3 ∧ starsFor 4 5 85 100 = 1 := by
  refine ⟨?_, by decide, by decide⟩
  have hlvl := getCurrentLevel_some s i hcur
  set mm := (s.levels.getD i default).maxMoves with hmmdef
  set t := (s.levels.getD i default).targetScore with htdef
  have hmq : (0 : ℚ) < (mm : ℚ) := by exact_mod_cast hm
  have htq : (0 : ℚ) < (t : ℚ) := by exact_mod_cast ht
  have e1 := div_le_div_nat_iff s.moves mm 1 2 hm (by norm_num)
  have e3 := div_le_div_nat_iff s.moves mm 3 4 hm (by norm_num)
  have e4 := div_le_div_nat_iff 4 5 s.score t (by norm_num) ht
  have e6 := div_le_div_nat_iff 3 5 s.score t (by norm_num) ht
  push_cast at e1 e3 e4 e6
  have e2 : (1 ≤ (s.score : ℚ) / (t : ℚ)) ↔ t ≤ s.score := by
    rw [one_le_div htq]
    exact Nat.cast_le
  have e5 : ((s.moves : ℚ) / (mm : ℚ) ≤ 1) ↔ s.moves ≤ mm := by
    rw [div_le_one hmq]
    exact Nat.cast_le
  unfold calculateStars starsFor
  rw [hlvl]
  simp only [e1, e2, e3, e4, e5, e6]
  split_ifs <;> omega

/-- Claim C5 witness: level 1 in progress with 2 of 5 moves used and score
120 of 100 computes the same stars as the pure rule on those numbers. -/
theorem calculateStars_pure_witness :
    calculateStars playingState = starsFor 2 5 120 100 :=
  (calculateStars_pure playingState 0 rfl (by decide) (by decide)).1

lemma completeLevel_some (s : LevelState) (i : Nat)
    (hcur : s.currentLevelData = some i) :
    completeLevel s =
      match findFirstIdx (fun l => l.id == s.currentLevel + 1) (bestStarsLevels s i) with
      | none =>
        (⟨calculateStars s, s.score, []⟩,
         { s with stars := calculateStars s, levels := bestStarsLevels s i })
      | some j =>
        if 0 < calculateStars s then
          (⟨calculateStars s, s.score, [((bestStarsLevels s i).getD j default).id]⟩,
           { s with
               stars := calculateStars s,
               levels := (bestStarsLevels s i).set j
                 { (bestStarsLevels s i).getD j default with unlocked := true } })
        else
          (⟨calculateStars s, s.score, []⟩,
           { s with stars := calculateStars s, levels := bestStarsLevels s i }) := by
  unfold completeLevel
  rw [hcur]

/-- Claim C3 counterexample: completing level 1 with a 3-star run while
level 2 is already unlocked returns the unlocked-list [2], not the empty
list the claim requires for an already-unlocked next level. -/
theorem completeLevel_reports_already_unlocked :
    (alreadyUnlockedState.levels.getD 1 default).unlocked = true ∧
    0 < (completeLevel alreadyUnlockedState).1.stars ∧
    (completeLevel alreadyUnlockedState).1.unlocked = [2] := by
  have hst : calculateStars alreadyUnlockedState = 3 := by
    norm_num [calculateStars, getCurrentLevel, alreadyUnlockedState, level1]
  have hbest : bestStarsLevels alreadyUnlockedState 0 =
      [{ level1 with stars := 3 }, level2Unlocked] := by
    unfold bestStarsLevels
    rw [hst]
    decide
  have hfi : findFirstIdx
      (fun l => l.id == alreadyUnlockedState.currentLevel + 1)
      [{ level1 with stars := 3 }, level2Unlocked] = some 1 := by
    decide
  refine ⟨by decide, ?_, ?_⟩
  · rw [completeLevel_some alreadyUnlockedState 0 rfl, hbest, hfi]
    simp only [hst]
    decide
  · rw [completeLevel_some alreadyUnlockedState 0 rfl, hbest, hfi]
    simp only [hst]
    decide

/-- Claim C3 amended: `completeLevel` with an active level returns the
unlocked-list [currentLevel+1] whenever the computed stars are positive and a
level with id currentLevel+1 exists in the catalog — regardless of whether
that level was already unlocked — and the empty list otherwise; with 0 stars
no level's unlocked flag changes. -/
theorem completeLevel_unlock_amended (s : LevelState) (i : Nat)
    (hcur : s.currentLevelData = some i) (hi : i < s.levels.length) :
    ((completeLevel s).1.unlocked =
      if 0 < calculateStars s ∧
          (findFirstIdx (fun l => l.id == s.currentLevel + 1) s.levels).isSome
      then [s.currentLevel + 1] else []) ∧
    (calculateStars s = 0 →
      (completeLevel s).2.levels.map (fun l => l.unlocked) =
        s.levels.map fun l => l.unlocked) := by
  have hy : s.levels[i]? = some (s.levels.getD i default) := by
    rw [List.getD_eq_getElem _ _ hi]
    exact List.getElem?_eq_getElem hi
  have hyeq : ∀ y, s.levels[i]? = some y → y = s.levels.getD i default := by
    intro y hy2
    rw [hy] at hy2
    exact (Option.some_inj.mp hy2).symm
  have hfind : findFirstIdx (fun l => l.id == s.currentLevel + 1)
      (bestStarsLevels s i) = findFirstIdx (fun l => l.id == s.currentLevel + 1) s.levels := by
    refine findFirstIdx_set _ _ _ _ fun y hy2 => ?_
    rw [hyeq y hy2]
  have hmap : (bestStarsLevels s i).map (fun l => l.unlocked) =
      s.levels.map fun l => l.unlocked := by
    refine map_set_eq _ _ _ _ fun y hy2 => ?_
    rw [hyeq y hy2]
  rw [completeLevel_some s i hcur]
  cases hf : findFirstIdx (fun l => l.id == s.currentLevel + 1) (bestStarsLevels s i) with
  | none =>
    have hf2 : findFirstIdx (fun l => l.id == s.currentLevel + 1) s.levels = none :=
      hfind.symm.trans hf
    constructor
    · simp [hf2]
    · intro h0
      exact hmap
  | some j =>
    have hf2 : findFirstIdx (fun l => l.id == s.currentLevel + 1) s.levels = some j :=
      hfind.symm.trans hf
    have hid : (((bestStarsLevels s i)[j]?).getD default).id = s.currentLevel + 1 := by
      have hps := findFirstIdx_some (fun l => l.id == s.currentLevel + 1)
        (bestStarsLevels s i) j default hf
      simpa [List.getD_eq_getElem?_getD] using hps.2
    by_cases h0 : 0 < calculateStars s
    · constructor
      · simp [h0, hf2, hid]
      · intro hz
        omega
    · constructor
      · have hz0 : ¬(0 < calculateStars s ∧
            (findFirstIdx (fun l : Level => l.id == s.currentLevel + 1) s.levels).isSome) := by
          intro hcon
          exact h0 hcon.1
        simp [h0, hz0]
      · intro _
        simp [h0]
        exact hmap

/-- Claim C3 amended, witness: completing level 1 with 3 stars while level 2
is already unlocked yields exactly the if-characterised unlocked-list, and a
0-star completion leaves every unlock flag as it was. -/
theorem completeLevel_unlock_amended_witness :
    ((completeLevel alreadyUnlockedState).1.unlocked =
      if 0 < calculateStars alreadyUnlockedState ∧
          (findFirstIdx (fun l => l.id == alreadyUnlockedState.currentLevel + 1)
            alreadyUnlockedState.levels).isSome
      then [alreadyUnlockedState.currentLevel + 1] else []) ∧
    ((completeLevel zeroStarState).2.levels.map (fun l => l.unlocked) =
      zeroStarState.levels.map fun l => l.unlocked) :=
  ⟨(completeLevel_unlock_amended alreadyUnlockedState 0 rfl (by decide)).1,
   (completeLevel_unlock_amended zeroStarState 0 rfl (by decide)).2
     (by norm_num [calculateStars, getCurrentLevel, zeroStarState, level1])⟩

/-- Claim C4 counterexample: with level 2 active (its descriptor lists 2
required gems) and a live grid containing zero required-gem blocks (here
empty, matching an empty position map), the `collect` check still reports
false — it consults the descriptor's static block list, never the live
grid. -/
theorem checkGemsCollected_ignores_live_grid :
    requiredGemCount [] = 0 ∧
    checkGemsCollected gemDemoState [] = false :=
  ⟨rfl, by decide⟩

/-- Claim C4 amended: the `collect` check is independent of the live-grid
positions argument; it returns true iff the active level descriptor's static
block list contains zero required gems (and false when no level is
active). -/
theorem checkGemsCollected_amended (s : LevelState) (bp bp2 : List Coord3) (i : Nat) :
    checkGemsCollected s bp = checkGemsCollected s bp2 ∧
    (s.currentLevelData = some i →
      (checkGemsCollected s bp = true ↔
        requiredGemCount (s.levels.getD i default).blocks = 0)) ∧
    (s.currentLevelData = none → checkGemsCollected s bp = false) := by
  refine ⟨rfl, fun hcur => ?_, fun hcur => ?_⟩
  · rw [checkGemsCollected, getCurrentLevel_some s i hcur]
    simp [requiredGemCount]
  · rw [checkGemsCollected]
    simp [getCurrentLevel, hcur]

/-- Claim C4 amended, witness: on the active level 2 the check is equivalent
to the descriptor's required-gem count being zero, and with no active level
it is false. -/
theorem checkGemsCollected_amended_witness :
    (checkGemsCollected gemDemoState [] = true ↔
      requiredGemCount (gemDemoState.levels.getD 0 default).blocks = 0) ∧
    checkGemsCollected freshCatalogState [] = false :=
  ⟨(checkGemsCollected_amended gemDemoState [] [⟨0, 0, 0⟩] 0).2.1 rfl,
   (checkGemsCollected_amended freshCatalogState [] [] 0).2.2 rfl⟩

end LevelSystem

namespace FishSystem

/-- A 3-component real vector (`THREE.Vector3`); the source's floating-point
arithmetic is modelled over ℝ. -/
structure Vec3 where
  x : ℝ
  y : ℝ
  z : ℝ

/-- `Vector3.length()`. -/
noncomputable def length (v : Vec3) : ℝ :=
  Real.sqrt (v.x ^ 2 + v.y ^ 2 + v.z ^ 2)

/-- `Vector3.multiplyScalar(c)`. -/
def smul (c : ℝ) (v : Vec3) : Vec3 :=
  ⟨c * v.x, c * v.y, c * v.z⟩

/-- `Vector3.negate()`. -/
def negV (v : Vec3) : Vec3 :=
  ⟨-v.x, -v.y, -v.z⟩

/-- `Vector3.normalize()`: divides by the length (three.js substitutes 1 for
a zero length). -/
noncomputable def normalize (v : Vec3) : Vec3 :=
  ⟨v.x / (if length v = 0 then 1 else length v),
   v.y / (if length v = 0 then 1 else length v),
   v.z / (if length v = 0 then 1 else length v)⟩

/-- The position integration step of `update`:
`fish.position.add(fish.velocity.clone().multiplyScalar(deltaTime))`. -/
def integratePos (p v : Vec3) (dt : ℝ) : Vec3 :=
  ⟨p.x + v.x * dt, p.y + v.y * dt, p.z + v.z * dt⟩

/-- The boundary check of `update`: if the distance from the origin exceeds
50, the position is renormalised and scaled by −40 (teleport to the opposite
side, inside the radius) and the velocity is negated; otherwise both are
kept. -/
noncomputable def boundaryWrap (p v : Vec3) : Vec3 × Vec3 :=
  if 50 < length p then (smul (-40) (normalize p), negV v) else (p, v)

/-- The tail of a fish's tick: position integration immediately followed by
the boundary check (the velocity fed to the integration is the already
steering-adjusted, speed-clamped velocity). -/
noncomputable def integrateAndWrap (p v : Vec3) (dt : ℝ) : Vec3 × Vec3 :=
  boundaryWrap (integratePos p v dt) v

lemma length_nonneg (v : Vec3) : 0 ≤ length v :=
  Real.sqrt_nonneg _

lemma length_smul (c : ℝ) (v : Vec3) : length (smul c v) = |c| * length v := by
  unfold length smul
  rw [show (c * v.x) ^ 2 + (c * v.y) ^ 2 + (c * v.z) ^ 2
      = c ^ 2 * (v.x ^ 2 + v.y ^ 2 + v.z ^ 2) by ring]
  rw [Real.sqrt_mul (sq_nonneg c), Real.sqrt_sq_eq_abs]

lemma length_normalize (v : Vec3) (h : length v ≠ 0) : length (normalize v) = 1 := by
  have hS : 0 ≤ v.x ^ 2 + v.y ^ 2 + v.z ^ 2 := by positivity
  have hsq : length v ^ 2 = v.x ^ 2 + v.y ^ 2 + v.z ^ 2 := Real.sq_sqrt hS
  have hnv : normalize v = ⟨v.x / length v, v.y / length v, v.z / length v⟩ := by
    unfold normalize
    simp only [if_neg h]
  rw [hnv]
  show Real.sqrt ((v.x / length v) ^ 2 + (v.y / length v) ^ 2 +
    (v.z / length v) ^ 2) = 1
  rw [div_pow, div_pow, div_pow, div_add_div_same, div_add_div_same, ← hsq,
    div_self (pow_ne_zero 2 h), Real.sqrt_one]

/-- Claim C8: when the distance from the origin at the end of a tick's
position integration exceeds the radius 50, the fish is immediately placed
on the opposite side of the origin (direction negated and scaled inward, at
distance exactly 40, hence within the radius) and its velocity becomes the
exact negation of its pre-wrap velocity; a fish within the radius keeps its
integrated position and velocity. -/
theorem boundary_wrap_spec (p v : Vec3) (dt : ℝ) :
    (50 < length (integratePos p v dt) →
      (integrateAndWrap p v dt).1 = smul (-40) (normalize (integratePos p v dt)) ∧
      length (integrateAndWrap p v dt).1 = 40 ∧
      (integrateAndWrap p v dt).2 = negV v) ∧
    (length (integratePos p v dt) ≤ 50 →
      integrateAndWrap p v dt = (integratePos p v dt, v)) := by
  constructor
  · intro h
    have hne : length (integratePos p v dt) ≠ 0 := by
      intro h0
      rw [h0] at h
      norm_num at h
    unfold integrateAndWrap boundaryWrap
    rw [if_pos h]
    refine ⟨rfl, ?_, rfl⟩
    show length (smul (-40) (normalize (integratePos p v dt))) = 40
    rw [length_smul, length_normalize _ hne]
    norm_num
  · intro h
    unfold integrateAndWrap boundaryWrap
    rw [if_neg (not_lt.mpr h)]

/-- Claim C8 witness: a fish integrated to (60,0,0) (distance 60 > 50) ends
the tick at distance 40 with velocity (−60,0,0); a fish staying at the
origin is untouched. -/
theorem boundary_wrap_spec_witness :
    length (integrateAndWrap ⟨0, 0, 0⟩ ⟨60, 0, 0⟩ 1).1 = 40 ∧
    (integrateAndWrap ⟨0, 0, 0⟩ ⟨60, 0, 0⟩ 1).2 = negV ⟨60, 0, 0⟩ ∧
    integrateAndWrap ⟨0, 0, 0⟩ ⟨0, 0, 0⟩ 1 =
      (integratePos ⟨0, 0, 0⟩ ⟨0, 0, 0⟩ 1, ⟨0, 0, 0⟩) := by
  have h1 : 50 < length (integratePos ⟨0, 0, 0⟩ ⟨60, 0, 0⟩ 1) := by
    show (50 : ℝ) < Real.sqrt ((0 + 60 * 1) ^ 2 + (0 + 0 * 1) ^ 2 + (0 + 0 * 1) ^ 2)
    rw [show ((0 : ℝ) + 60 * 1) ^ 2 + (0 + 0 * 1) ^ 2 + (0 + 0 * 1) ^ 2 = 60 ^ 2 by
      norm_num]
    rw [Real.sqrt_sq (by norm_num : (0 : ℝ) ≤ 60)]
    norm_num
  have h2 : length (integratePos ⟨0, 0, 0⟩ ⟨0, 0, 0⟩ 1) ≤ 50 := by
    show Real.sqrt ((0 + 0 * 1) ^ 2 + (0 + 0 * 1) ^ 2 + (0 + 0 * 1) ^ 2) ≤ 50
    rw [show ((0 : ℝ) + 0 * 1) ^ 2 + (0 + 0 * 1) ^ 2 + (0 + 0 * 1) ^ 2 = 0 by norm_num]
    rw [Real.sqrt_zero]
    norm_num
  obtain ⟨-, h40, hneg⟩ := (boundary_wrap_spec ⟨0, 0, 0⟩ ⟨60, 0, 0⟩ 1).1 h1
  exact ⟨h40, hneg, (boundary_wrap_spec ⟨0, 0, 0⟩ ⟨0, 0, 0⟩ 1).2 h2⟩

end FishSystem

end Rowblocks
